import Mathlib

/-!
Verification of the `validator_derive` validation compiler
(`src/validator_derive/src/lib.rs`).

The development shallowly embeds the compiler: Rust attribute metadata
(`syn::Meta` / `syn::NestedMeta` / `syn::Lit`) becomes an inductive syntax
tree, fatal compilation diagnostics (`abort!` / `proc_macro_error`) and Rust
panics (`unwrap`, out-of-bounds indexing, `unreachable!`) become an
`Except Failure` result, and the per-field / per-struct extraction functions
(`find_struct_validation`, `find_fields_type`, `find_validators_for_field`,
`find_original_field_name`) are translated clause by clause.

The helper modules `asserts.rs`, `lit.rs`, `validation.rs` and `quoting.rs`
are declared by `lib.rs` but their sources are not part of the repository
snapshot; the definitions below that stand in for them are modelled from the
specification and are marked as such in their doc comments.
-/

namespace ValidatorDerive

/-- Outcome of a failing compiler step.  `typeError` marks a fatal
type-compatibility diagnostic (the `asserts` module), `argError` a fatal
argument-shape diagnostic (the `lit` / `validation` modules), `abort` any
other fatal diagnostic raised directly by `lib.rs` via `abort!`, and
`panicked` aRust panic (`unwrap` on `None`, index out of bounds,
`unreachable!`). -/
inductive Failure where
  | typeError (msg : String)
  | argError (msg : String)
  | abort (msg : String)
  | panicked (msg : String)
deriving Repr, DecidableEq

/-- Literal attribute argument values (`syn::Lit`, restricted to the shapes
the compiler inspects: strings, booleans and integers). -/
inductive Lit where
  | str (s : String)
  | boolean (b : Bool)
  | int (n : Int)
deriving Repr, DecidableEq

/-- Parsed attribute metadata: `syn::Meta` (constructors `path`,
`nameValue`, `list`) together with `syn::NestedMeta::Lit` (constructor
`lit`), so a `list`'s arguments can be either nested metadata or a bare
literal.  Path segments are modelled as plain identifier strings. -/
inductive NMeta where
  | path (name : String)
  | nameValue (name : String) (lit : Lit)
  | list (name : String) (args : List NMeta)
  | lit (l : Lit)
deriving Repr

/-- An attribute on a field or struct: its path (`validate`, `serde`, …)
and the result of `parse_meta()` (the `Err` case of `parse_meta` is handled
as `unreachable!` by the source and is not representable here). -/
structure Attribute where
  path : String
  meta : NMeta
deriving Repr

/-- A field's declared type, following the `syn::Type` cases that
`find_fields_type` distinguishes: a plain path type, a reference (with or
without an explicit lifetime), a parenthesized group, or anything else
(which the compiler rejects).  Token text is carried as a string. -/
inductive SynType where
  | pathTy (tokens : String)
  | reference (lifetime : Option String) (elem : SynType)
  | group (elem : SynType)
  | other (tokens : String)
deriving Repr

/-- A named struct field: identifier, declared type, attached attributes.
`impl_validate` rejects unnamed fields up front, so the embedding only
represents named ones. -/
structure Field where
  ident : String
  ty : SynType
  attrs : List Attribute
deriving Repr

/-- The closed validator vocabulary (`validator_types::Validator`).  The
feature-gated validators (`phone`, `credit_card`, `non_control_character`)
are modelled as available. -/
inductive Validator where
  | email
  | url
  | phone
  | creditCard
  | nonControlCharacter
  | required
  | nested
  | length (min max equal : Option Int)
  | range (min max : Option Int)
  | custom (function : String)
  | contains (pattern : String)
  | regex (path : String)
  | mustMatch (other : String)
deriving Repr, DecidableEq

/-- One extracted validation entry for a field: the validator plus optional
code/message overrides (spec §3, `FieldValidation`). -/
structure FieldValidation where
  validator : Validator
  code : Option String
  message : Option String
deriving Repr, DecidableEq

/-- `FieldValidation::new`: a validation with no code/message override. -/
def FieldValidation.new (v : Validator) : FieldValidation :=
  ⟨v, none, none⟩

/-- One struct-level schema validation entry (spec §3,
`SchemaValidation`). -/
structure SchemaValidation where
  function : String
  skip_on_field_errors : Bool
  code : Option String
  message : Option String
deriving Repr, DecidableEq

/-- Association-list lookup standing in for `HashMap::get` on the
field-name → type-name map. -/
def lookupType (m : List (String × String)) (k : String) : Option String :=
  match m with
  | [] => none
  | (k', v) :: rest => if k' == k then some v else lookupType rest k

/-- Token text with every space removed, as done by
`tokens.to_string().replace(' ', "")` in `find_fields_type`. -/
def stripSpaces (s : String) : String :=
  String.mk (s.data.filter (fun c => c != ' '))

/-- The token text of a type, as `ToTokens` would print it (spaces between
tokens). -/
def tokensOf : SynType → String
  | SynType.pathTy s => s
  | SynType.reference none elem => "& " ++ tokensOf elem
  | SynType.reference (some l) elem => "&'" ++ l ++ " " ++ tokensOf elem
  | SynType.group elem => tokensOf elem
  | SynType.other s => s

/-- Modelled from the spec: `lit.rs` is not under `src/`.  Spec §4.1: the
literal resolver returns the string value of a string literal and signals a
shape error (here: `none`) otherwise, with no implicit coercion. -/
def lit_to_string : Lit → Option String
  | Lit.str s => some s
  | _ => none

/-- Modelled from the spec: `lit.rs` is not under `src/`.  Spec §4.1: the
literal resolver returns the boolean value of a bool literal and `none`
otherwise. -/
def lit_to_bool : Lit → Option Bool
  | Lit.boolean b => some b
  | _ => none

/-- Modelled from the spec: `lit.rs` is not under `src/`.  Spec §4.1: the
literal resolver returns the numeric value of a numeric literal and `none`
otherwise. -/
def lit_to_int : Lit → Option Int
  | Lit.int n => some n
  | _ => none

/-- Modelled from the spec: `asserts.rs` is not under `src/`.  Spec §4.2
and §9: registry of known string-like type names (`String`, `&str`, or
reference-to-string forms); unknown types are rejected. -/
def string_like_types : List String :=
  ["String", "&str", "&String"]

/-- Modelled from the spec: `asserts.rs` is not under `src/`.  Spec §4.2
and §9: registry of known length-capable type names (string, sequence and
map-like types). -/
def len_capable_types : List String :=
  ["String", "&str", "&String",
   "Vec<String>", "Vec<i32>", "Vec<u8>",
   "HashMap<String,String>", "HashSet<String>",
   "BTreeMap<String,String>", "BTreeSet<String>"]

/-- Modelled from the spec: `asserts.rs` is not under `src/`.  Spec §4.2
and §9: registry of orderable scalar type names (numeric primitives). -/
def range_capable_types : List String :=
  ["usize", "u8", "u16", "u32", "u64",
   "isize", "i8", "i16", "i32", "i64", "f32", "f64"]

/-- Modelled from the spec: `asserts.rs` is not under `src/`.  Spec §4.2,
`assert_string_type(validator_name, type)`: the type must denote a known
string-like type, otherwise compilation fails fatally. -/
def assert_string_type (validator : String) (ty : String) : Except Failure Unit :=
  if string_like_types.contains ty then Except.ok ()
  else Except.error (Failure.typeError
    ("validator `" ++ validator ++ "` can only be used on string types, found `" ++ ty ++ "`"))

/-- Modelled from the spec: `asserts.rs` is not under `src/`.  Spec §4.2,
`assert_has_len(field_name, type)`: the type must have a length capability,
otherwise compilation fails fatally. -/
def assert_has_len (field : String) (ty : String) : Except Failure Unit :=
  if len_capable_types.contains ty then Except.ok ()
  else Except.error (Failure.typeError
    ("field `" ++ field ++ "` of type `" ++ ty ++ "` has no length capability"))

/-- Modelled from the spec: `asserts.rs` is not under `src/`.  Spec §4.2,
`assert_has_range(field_name, type)`: the type must be an orderable scalar,
otherwise compilation fails fatally. -/
def assert_has_range (field : String) (ty : String) : Except Failure Unit :=
  if range_capable_types.contains ty then Except.ok ()
  else Except.error (Failure.typeError
    ("field `" ++ field ++ "` of type `" ++ ty ++ "` has no ordering capability"))

/-- Modelled from the spec: `asserts.rs` is not under `src/`.  Spec §4.2,
`assert_type_matches(field_name, type_a, type_b_or_absent)`: fails if the
referenced field does not exist (the second type is absent) or if the two
normalized type descriptors differ. -/
def assert_type_matches (field : String) (ta : String) (tb : Option String) :
    Except Failure Unit :=
  match tb with
  | none => Except.error (Failure.typeError
      ("field referenced by `must_match` on `" ++ field ++ "` does not exist"))
  | some tb' =>
    if ta == tb' then Except.ok ()
    else Except.error (Failure.typeError
      ("field `" ++ field ++ "` of type `" ++ ta ++ "` cannot match a field of type `" ++ tb' ++ "`"))

/-- Normalization of one field type in `find_fields_type`: path types keep
their space-stripped token text; references keep the `&` marker only when
they carry an explicit lifetime; groups are unwrapped; any other type shape
is a fatal diagnostic. -/
def normType : SynType → Except Failure String
  | SynType.pathTy s => Except.ok (stripSpaces s)
  | SynType.reference lifetime elem =>
    let name := stripSpaces (tokensOf elem)
    Except.ok (if lifetime.isSome then "&" ++ name else name)
  | SynType.group elem => Except.ok (stripSpaces (tokensOf elem))
  | SynType.other s => Except.error (Failure.abort ("Type `" ++ s ++ "` not supported"))

/-- `find_fields_type`: the field-name → normalized-type-name map used by
the `must_match` checks, built in field order. -/
def find_fields_type (fields : List Field) : Except Failure (List (String × String)) :=
  fields.foldlM
    (fun acc f => do
      let t ← normType f.ty
      pure (acc ++ [(f.ident, t)]))
    []

/-- One step of the argument loop inside `find_struct_validation`: a
name–value argument updates the partially built `SchemaValidation`
(`function`, `skip_on_field_errors`, `code`, `message`), a wrong literal
shape or an unknown argument name is fatal, and any other argument form is
the fatal `Unexpected args` diagnostic. -/
def processSchemaArg (st : SchemaValidation) (arg : NMeta) : Except Failure SchemaValidation :=
  match arg with
  | NMeta.nameValue n l =>
    if n == "function" then
      match lit_to_string l with
      | some s => Except.ok { st with function := s }
      | none => Except.error (Failure.abort
          "invalid argument type for `function`: only a string is allowed")
    else if n == "skip_on_field_errors" then
      match lit_to_bool l with
      | some b => Except.ok { st with skip_on_field_errors := b }
      | none => Except.error (Failure.abort
          "invalid argument type for `skip_on_field_errors`: only a bool is allowed")
    else if n == "code" then
      match lit_to_string l with
      | some s => Except.ok { st with code := some s }
      | none => Except.error (Failure.abort
          "invalid argument type for `code`: only a string is allowed")
    else if n == "message" then
      match lit_to_string l with
      | some s => Except.ok { st with message := some s }
      | none => Except.error (Failure.abort
          "invalid argument type for `message`: only a string is allowed")
    else Except.error (Failure.abort "Unknown argument")
  | _ => Except.error (Failure.abort "Unexpected args")

/-- The default `SchemaValidation` state the argument loop of
`find_struct_validation` starts from: empty function name,
`skip_on_field_errors` defaulting to `true`, no code, no message. -/
def defaultSchemaValidation : SchemaValidation :=
  ⟨"", true, none, none⟩

/-- `find_struct_validation`: extraction of one struct-level `#[validate]`
attribute.  The attribute must parse to a list whose first element
(`nested[0]` — indexing an empty list is a Rust panic) is itself a list
named `schema`; its arguments are folded by `processSchemaArg`; afterwards
an empty `function` is fatal. -/
def find_struct_validation (attr : Attribute) : Except Failure SchemaValidation :=
  match attr.meta with
  | NMeta.list _ nested =>
    match nested with
    | [] => Except.error (Failure.panicked
        "index out of bounds: the len is 0 but the index is 0")
    | first :: _ =>
      match first with
      | NMeta.list ident args =>
        if ident != "schema" then
          Except.error (Failure.abort "Only `schema` is allowed as validator on a struct")
        else do
          let st ← args.foldlM processSchemaArg defaultSchemaValidation
          if st.function.isEmpty then
            Except.error (Failure.abort "`function` is required")
          else
            Except.ok st
      | _ => Except.error (Failure.abort "Unexpected struct validator")
  | _ => Except.error (Failure.abort "Unexpected struct validator")

/-- `find_struct_validations`: all struct-level validations, taken from the
attributes whose path is `validate`, in declaration order. -/
def find_struct_validations (attrs : List Attribute) : Except Failure (List SchemaValidation) :=
  (attrs.filter (fun a => a.path == "validate")).mapM find_struct_validation

/-- `find_original_field_name`: search the items of a `#[serde(...)]`
attribute for a `rename` value.  A path item is skipped; a `rename = lit`
item takes the literal's string value (`unwrap` — a non-string literal is a
Rust panic) and the loop returns it; any list item makes the function
return the recursive search of that list immediately; a bare literal item
is `unreachable!`. -/
def find_original_field_name : List NMeta → Except Failure (Option String)
  | [] => Except.ok none
  | NMeta.path _ :: rest => find_original_field_name rest
  | NMeta.nameValue n l :: rest =>
    if n == "rename" then
      match lit_to_string l with
      | some s => Except.ok (some s)
      | none => Except.error (Failure.panicked "called `Option::unwrap()` on a `None` value")
    else
      find_original_field_name rest
  | NMeta.list _ args :: _ => find_original_field_name args
  | NMeta.lit _ :: _ => Except.error (Failure.panicked "internal error: entered unreachable code")


/-- Modelled from the spec: `validation.rs` is not under `src/`.  Spec §4.3
step 6, shared bound-argument loop for `length`/`range`: collects the
numeric `min`/`max`/`equal` values from name–value arguments; a wrong
literal shape or an argument name outside `allowed` is a fatal
argument-shape error. -/
def extract_bounds (allowed : List String) :
    List NMeta → Except Failure (List (String × Int))
  | [] => Except.ok []
  | NMeta.nameValue n l :: rest =>
    if allowed.contains n then
      match lit_to_int l with
      | some v => do
        let tail ← extract_bounds allowed rest
        Except.ok ((n, v) :: tail)
      | none => Except.error (Failure.argError
          ("invalid argument type for `" ++ n ++ "`: only a number is allowed"))
    else
      Except.error (Failure.argError ("unknown argument `" ++ n ++ "`"))
  | _ :: _ => Except.error (Failure.argError "unexpected argument shape")

/-- First value bound to a given bound name in the collected
`min`/`max`/`equal` argument list. -/
def lookupBound (bs : List (String × Int)) (k : String) : Option Int :=
  match bs with
  | [] => none
  | (k', v) :: rest => if k' == k then some v else lookupBound rest k

/-- Modelled from the spec: `validation.rs` is not under `src/`.  Spec §4.3
step 6, `extract_length_validation`: zero or more of `min`, `max`, `equal`
(all numeric); at least one must be present or it is a fatal
`MissingBoundsError`. -/
def extract_length_validation (field : String) (items : List NMeta) :
    Except Failure FieldValidation := do
  let bs ← extract_bounds ["min", "max", "equal"] items
  if bs.isEmpty then
    Except.error (Failure.argError
      ("validator `length` on field `" ++ field ++ "` requires at least one of `min`, `max` or `equal`"))
  else
    Except.ok (FieldValidation.new
      (Validator.length (lookupBound bs "min") (lookupBound bs "max") (lookupBound bs "equal")))

/-- Modelled from the spec: `validation.rs` is not under `src/`.  Spec §4.3
step 6, `extract_range_validation`: zero or more of `min`, `max` (numeric);
at least one must be present or it is a fatal `MissingBoundsError`. -/
def extract_range_validation (field : String) (items : List NMeta) :
    Except Failure FieldValidation := do
  let bs ← extract_bounds ["min", "max"] items
  if bs.isEmpty then
    Except.error (Failure.argError
      ("validator `range` on field `" ++ field ++ "` requires at least one of `min` or `max`"))
  else
    Except.ok (FieldValidation.new
      (Validator.range (lookupBound bs "min") (lookupBound bs "max")))

/-- Modelled from the spec: `validation.rs` is not under `src/`.  Spec §4.3
steps 4–5, `extract_one_arg_validation`: exactly one required argument,
named `argName` and resolved as a string; any other argument, a wrong
literal shape, or a missing required argument is a fatal argument-shape
error.  `mk` builds the validator from the resolved string. -/
def extract_one_arg_validation (argName : String) (mk : String → Validator) :
    List NMeta → Except Failure FieldValidation
  | [] => Except.error (Failure.argError ("missing required argument `" ++ argName ++ "`"))
  | NMeta.nameValue n l :: rest =>
    if n == argName then
      match lit_to_string l with
      | some s =>
        if rest.isEmpty then Except.ok (FieldValidation.new (mk s))
        else Except.error (Failure.argError "exactly one argument is expected")
      | none => Except.error (Failure.argError
          ("invalid argument type for `" ++ argName ++ "`: only a string is allowed"))
    else
      Except.error (Failure.argError ("unknown argument `" ++ n ++ "`"))
  | _ :: _ => Except.error (Failure.argError "unexpected argument shape")

/-- Modelled from the spec: `validation.rs` is not under `src/`.  The list
forms of the no-argument validators (`email(...)`, `url(...)`, …) accept
only `code`/`message` overrides, per the `FieldValidation` data model
(spec §3). -/
def extract_argless_validation (v : Validator) :
    List NMeta → Except Failure FieldValidation :=
  fun items => do
    let st ← items.foldlM
      (fun (st : FieldValidation) item =>
        match item with
        | NMeta.nameValue "code" l =>
          match lit_to_string l with
          | some s => Except.ok { st with code := some s }
          | none => Except.error (Failure.argError
              "invalid argument type for `code`: only a string is allowed")
        | NMeta.nameValue "message" l =>
          match lit_to_string l with
          | some s => Except.ok { st with message := some s }
          | none => Except.error (Failure.argError
              "invalid argument type for `message`: only a string is allowed")
        | _ => Except.error (Failure.argError "unknown argument"))
      (FieldValidation.new v)
    Except.ok st

/-- Dispatch on one validation item inside a `#[validate(...)]` list,
following the three `syn::Meta` shapes in `find_validators_for_field`:
a path item is a no-argument validator (unknown names are fatal), a
name–value item is `custom`/`contains`/`regex`/`must_match` with a string
argument, and a list item is a multi-argument validator.  For `length` and
`range` the type-compatibility assertion runs before argument extraction;
for the `must_match` list form the argument is extracted first and
`assert_type_matches` runs afterwards, only when extraction produced a
`MustMatch` validator.  Returns the validators this item appends. -/
def processMetaItem (rust_ident field_type : String)
    (field_types : List (String × String)) :
    NMeta → Except Failure (List FieldValidation)
  | NMeta.path name =>
    match name with
    | "email" => do
      assert_string_type "email" field_type
      Except.ok [FieldValidation.new Validator.email]
    | "url" => do
      assert_string_type "url" field_type
      Except.ok [FieldValidation.new Validator.url]
    | "phone" => do
      assert_string_type "phone" field_type
      Except.ok [FieldValidation.new Validator.phone]
    | "credit_card" => do
      assert_string_type "credit_card" field_type
      Except.ok [FieldValidation.new Validator.creditCard]
    | "non_control_character" => do
      assert_string_type "non_control_character" field_type
      Except.ok [FieldValidation.new Validator.nonControlCharacter]
    | "required" => Except.ok [FieldValidation.new Validator.required]
    | "required_nested" =>
      Except.ok [FieldValidation.new Validator.required, FieldValidation.new Validator.nested]
    | _ => Except.error (Failure.abort ("Unexpected validator: " ++ name))
  | NMeta.nameValue name l =>
    match name with
    | "custom" =>
      match lit_to_string l with
      | some s => Except.ok [FieldValidation.new (Validator.custom s)]
      | none => Except.error (Failure.abort
          "invalid argument for `custom` validator: only strings are allowed")
    | "contains" =>
      match lit_to_string l with
      | some s => Except.ok [FieldValidation.new (Validator.contains s)]
      | none => Except.error (Failure.abort
          "invalid argument for `contains` validator: only strings are allowed")
    | "regex" =>
      match lit_to_string l with
      | some s => Except.ok [FieldValidation.new (Validator.regex s)]
      | none => Except.error (Failure.abort
          "invalid argument for `regex` validator: only strings are allowed")
    | "must_match" =>
      match lit_to_string l with
      | some s => do
        assert_type_matches rust_ident field_type (lookupType field_types s)
        Except.ok [FieldValidation.new (Validator.mustMatch s)]
      | none => Except.error (Failure.abort
          "invalid argument for `must_match` validator: only strings are allowed")
    | _ => Except.error (Failure.abort ("unexpected name value validator: " ++ name))
  | NMeta.list name items =>
    match name with
    | "length" => do
      assert_has_len rust_ident field_type
      let v ← extract_length_validation rust_ident items
      Except.ok [v]
    | "range" => do
      assert_has_range rust_ident field_type
      let v ← extract_range_validation rust_ident items
      Except.ok [v]
    | "email" => do
      let v ← extract_argless_validation Validator.email items
      Except.ok [v]
    | "url" => do
      let v ← extract_argless_validation Validator.url items
      Except.ok [v]
    | "phone" => do
      let v ← extract_argless_validation Validator.phone items
      Except.ok [v]
    | "credit_card" => do
      let v ← extract_argless_validation Validator.creditCard items
      Except.ok [v]
    | "non_control_character" => do
      let v ← extract_argless_validation Validator.nonControlCharacter items
      Except.ok [v]
    | "custom" => do
      let v ← extract_one_arg_validation "function" Validator.custom items
      Except.ok [v]
    | "contains" => do
      let v ← extract_one_arg_validation "pattern" Validator.contains items
      Except.ok [v]
    | "regex" => do
      let v ← extract_one_arg_validation "path" Validator.regex items
      Except.ok [v]
    | "must_match" => do
      let v ← extract_one_arg_validation "other" Validator.mustMatch items
      match v.validator with
      | Validator.mustMatch t2 => do
        assert_type_matches rust_ident field_type (lookupType field_types t2)
        Except.ok [v]
      | _ => Except.ok [v]
    | _ => Except.error (Failure.abort ("unexpected list validator: " ++ name))
  | NMeta.lit _ =>
    Except.error (Failure.panicked "Found a non Meta while looking for validators")

/-- The mutable state of the attribute loop in `find_validators_for_field`:
the external field name (initially the declaration name, overwritten by a
serde rename), the validators collected so far, and whether a `validate`
attribute has been seen. -/
structure FVState where
  field_ident : String
  validators : List FieldValidation
  has_validate : Bool
deriving Repr

/-- The `it needs at least one validator` check performed at the end of a
non-skipped iteration of the attribute loop. -/
def emptyCheck (st : FVState) : Except Failure FVState :=
  if st.has_validate && st.validators.isEmpty then
    Except.error (Failure.abort "it needs at least one validator")
  else
    Except.ok st

/-- The `serde` list-attribute branch of the attribute loop: update the
external field name when a rename is found, propagating failures of
`find_original_field_name`. -/
def processSerdeList (st : FVState) (nested : List NMeta) : Except Failure FVState :=
  match find_original_field_name nested with
  | Except.error f => Except.error f
  | Except.ok (some s) => Except.ok { st with field_ident := s }
  | Except.ok none => Except.ok st

/-- The `validate` list-attribute branch of the attribute loop: process
each item via `processMetaItem`, appending the produced validators, then
run the `emptyCheck`. -/
def processValidateList (rust_ident field_type : String)
    (field_types : List (String × String))
    (st : FVState) (nested : List NMeta) : Except Failure FVState := do
  let vs ← nested.foldlM
    (fun acc item => do
      let new ← processMetaItem rust_ident field_type field_types item
      pure (acc ++ new))
    st.validators
  emptyCheck { st with validators := vs }

/-- One iteration of the attribute loop of `find_validators_for_field`.
Attributes other than `validate`/`serde` are skipped.  A `serde` list
attribute updates the external field name via `find_original_field_name`
and `continue`s (skipping the empty-validator check).  A `validate` list
attribute processes each item via `processMetaItem`.  A bare path attribute
appends a `Nested` validator.  A name–value attribute is fatal.  Every
non-`continue` iteration ends with `emptyCheck`. -/
def processAttr (rust_ident field_type : String)
    (field_types : List (String × String))
    (st : FVState) (attr : Attribute) : Except Failure FVState :=
  if attr.path != "validate" && attr.path != "serde" then
    Except.ok st
  else
    let st2 := { st with has_validate := st.has_validate || attr.path == "validate" }
    match attr.meta with
    | NMeta.list _ nested =>
      if attr.path == "serde" then processSerdeList st2 nested
      else processValidateList rust_ident field_type field_types st2 nested
    | NMeta.path _ =>
      emptyCheck { st2 with validators := st2.validators ++ [FieldValidation.new Validator.nested] }
    | NMeta.nameValue _ _ =>
      Except.error (Failure.abort "Unexpected name=value argument")
    | NMeta.lit _ =>
      Except.error (Failure.panicked "attribute did not parse to a Meta")

/-- `find_validators_for_field`: the external name of a field (after any
serde rename) and the ordered list of validators extracted from its
attributes.  The initial type lookup mirrors
`field_types.get(&field_ident).unwrap()`. -/
def find_validators_for_field (field : Field)
    (field_types : List (String × String)) :
    Except Failure (String × List FieldValidation) :=
  match lookupType field_types field.ident with
  | none => Except.error (Failure.panicked "called `Option::unwrap()` on a `None` value")
  | some field_type => do
    let st ← field.attrs.foldlM (processAttr field.ident field_type field_types)
      ⟨field.ident, [], false⟩
    pure (st.field_ident, st.validators)

/-- Whether a validation entry is the `Nested` validator (routed to the
nested phase by the emitter). -/
def isNestedV (v : FieldValidation) : Bool :=
  match v.validator with
  | Validator.nested => true
  | _ => false

/-- Modelled from the spec: `quoting.rs` is not under `src/`.  Spec §4.5:
`quote_field_validation` routes each of a field's validations either into
the field phase (`validations`) or, for `Nested`, into the nested phase
(`nested_validations`), keyed by the field's external name; declaration
order is preserved within each phase. -/
def routeField (name : String) (vs : List FieldValidation) :
    List FieldValidation × List String :=
  (vs.filter (fun v => !isNestedV v), (vs.filter (fun v => isNestedV v)).map (fun _ => name))

/-- The validation plan emitted for one record type: per-field validator
lists for the field phase (keyed by external name, in field order), the
nested-phase field names in emission order, and the schema validations in
declaration order (spec §3, `ValidationPlan`). -/
structure Plan where
  fields : List (String × List FieldValidation)
  nestedOrder : List String
  schemas : List SchemaValidation
deriving Repr

/-- `impl_validate`, up to the point where the routine is emitted: build
the field-type map, extract every field's external name and validators,
route them into the field/nested phases, and collect the struct-level
schema validations. -/
def impl_validate_plan (fields : List Field) (structAttrs : List Attribute) :
    Except Failure Plan := do
  let field_types ← find_fields_type fields
  let fv ← fields.mapM (fun f => find_validators_for_field f field_types)
  let schemas ← find_struct_validations structAttrs
  Except.ok
    { fields := fv.map (fun p => (p.1, (routeField p.1 p.2).1)),
      nestedOrder := (fv.map (fun p => (routeField p.1 p.2).2)).flatten,
      schemas := schemas }

/-- The capability interfaces the emitted routine calls into at run time
(spec §2 and §6): evaluating one field validator against the field's value
(`some code` on failure), invoking a schema function (returning the error
entries it produced), and recursively validating a nested sub-record
(returning the sub-record's error codes on failure). -/
structure Oracle where
  fieldCheck : String → FieldValidation → Option String
  schemaCheck : SchemaValidation → List (String × String)
  nestedCheck : String → Except (List String) Unit

/-- Modelled from the spec: `quoting.rs` is not under `src/`.  Spec §4.5
step 2: the field phase for one field evaluates its validators in order,
accumulating `(external_name, code)` entries; a failing `Required`
suppresses the remaining validators of that field. -/
def runFieldOne (o : Oracle) (name : String) :
    List FieldValidation → List (String × String)
  | [] => []
  | v :: rest =>
    match o.fieldCheck name v with
    | none => runFieldOne o name rest
    | some code =>
      match v.validator with
      | Validator.required => [(name, code)]
      | _ => (name, code) :: runFieldOne o name rest

/-- Spec §4.5 step 2: the field phase over all fields, in field order. -/
def runFieldPhase (o : Oracle) (fields : List (String × List FieldValidation)) :
    List (String × String) :=
  fields.foldl (fun acc p => acc ++ runFieldOne o p.1 p.2) []

/-- Modelled from the spec: `quoting.rs` is not under `src/`.  Spec §4.5
step 4: each schema validation runs in declaration order and is skipped
when `skip_on_field_errors` is set and the field phase produced errors;
its error entries are appended to the accumulator. -/
def runSchemaPhase (o : Oracle) (hasFieldErrors : Bool)
    (svs : List SchemaValidation) : List (String × String) :=
  svs.foldl
    (fun acc sv =>
      if sv.skip_on_field_errors && hasFieldErrors then acc
      else acc ++ o.schemaCheck sv)
    []

/-- Modelled from the spec: `quoting.rs` is not under `src/`.  Spec §4.5
step 5: merging one nested sub-validation into the running result — the
sub-record's error codes are keyed under the parent field's external name
(flattened) and appended, turning a success into a failure when any
sub-error exists. -/
def mergeOne (res : Except (List (String × String)) Unit) (name : String)
    (child : Except (List String) Unit) : Except (List (String × String)) Unit :=
  match child with
  | Except.ok _ => res
  | Except.error codes =>
    let entries := codes.map (fun c => (name, c))
    match res with
    | Except.ok _ => if entries.isEmpty then Except.ok () else Except.error entries
    | Except.error e => Except.error (e ++ entries)

/-- The emitted `validate` routine (`impl_validate`, lines 71–91): run the
field-phase splices into a fresh accumulator, then the schema-phase
splices, compute `result` from whether the accumulator is empty, then run
the nested-phase splices which merge into `result`, and return it. -/
def validateFn (plan : Plan) (o : Oracle) : Except (List (String × String)) Unit :=
  let fieldErrs := runFieldPhase o plan.fields
  let errors := fieldErrs ++ runSchemaPhase o (!fieldErrs.isEmpty) plan.schemas
  let result := if errors.isEmpty then Except.ok () else Except.error errors
  plan.nestedOrder.foldl (fun res name => mergeOne res name (o.nestedCheck name)) result

/-- The error entries contributed by the nested phase, in emission order:
each nested field's sub-error codes keyed by the parent field's external
name. -/
def nestedErrors (o : Oracle) : List String → List (String × String)
  | [] => []
  | n :: ns =>
    (match o.nestedCheck n with
     | Except.ok _ => []
     | Except.error cs => cs.map (fun c => (n, c))) ++ nestedErrors o ns

/-- The full three-phase error accumulator: field-phase errors, then
schema-phase errors (with `has_field_errors` read from the field phase
only), then nested-phase errors. -/
def phaseErrors (plan : Plan) (o : Oracle) : List (String × String) :=
  let fieldErrs := runFieldPhase o plan.fields
  fieldErrs ++ runSchemaPhase o (!fieldErrs.isEmpty) plan.schemas ++
    nestedErrors o plan.nestedOrder

/-- Whether a compiler step ended in a fatal `abort!` diagnostic raised by
`lib.rs`. -/
def isAbortResult {A : Type} : Except Failure A → Bool
  | Except.error (Failure.abort _) => true
  | _ => false

/-- Whether a compiler step ended in a fatal type-compatibility diagnostic
(one of the `asserts` checks). -/
def isTypeErrorResult {A : Type} : Except Failure A → Bool
  | Except.error (Failure.typeError _) => true
  | _ => false

/-- Whether a compiler step ended in a fatal argument-shape diagnostic
(literal resolution / argument extraction). -/
def isArgErrorResult {A : Type} : Except Failure A → Bool
  | Except.error (Failure.argError _) => true
  | _ => false

/-- Whether a compiler step ended in any fatal outcome. -/
def isErrorResult {A : Type} : Except Failure A → Bool
  | Except.error _ => true
  | _ => false

/-- Package an error accumulator as the routine's result: success exactly
when the accumulator is empty. -/
def mkRes (e : List (String × String)) : Except (List (String × String)) Unit :=
  if e.isEmpty then Except.ok () else Except.error e

/-- A well-formed argument of a struct-level `schema(...)` intent: a
name–value item whose name is one of the four recognized argument names
and whose literal has the shape that name requires. -/
def goodSchemaArg : NMeta → Bool
  | NMeta.nameValue n l =>
    if n == "function" then (lit_to_string l).isSome
    else if n == "skip_on_field_errors" then (lit_to_bool l).isSome
    else if n == "code" then (lit_to_string l).isSome
    else if n == "message" then (lit_to_string l).isSome
    else false
  | _ => false

/-- The pure effect of one well-formed `schema(...)` argument on the
partially built `SchemaValidation` (an ill-shaped literal leaves the state
unchanged — that case never occurs under `goodSchemaArg`). -/
def applyOneSchemaArg (st : SchemaValidation) : NMeta → SchemaValidation
  | NMeta.nameValue n l =>
    if n == "function" then { st with function := (lit_to_string l).getD st.function }
    else if n == "skip_on_field_errors" then
      { st with skip_on_field_errors := (lit_to_bool l).getD st.skip_on_field_errors }
    else if n == "code" then { st with code := ((lit_to_string l).map some).getD st.code }
    else if n == "message" then { st with message := ((lit_to_string l).map some).getD st.message }
    else st
  | _ => st

/-- The `SchemaValidation` a list of well-formed `schema(...)` arguments
builds, starting from the defaults (later occurrences overwrite earlier
ones). -/
def schemaArgsResult (args : List NMeta) : SchemaValidation :=
  args.foldl applyOneSchemaArg defaultSchemaValidation

/-- The struct-level attribute `#[validate(...)]` with the given items. -/
def structValidateAttr (items : List NMeta) : Attribute :=
  ⟨"validate", NMeta.list "validate" items⟩

/-- A serde item that neither is a rename nor changes the control flow of
`find_original_field_name`: a bare path, or a name–value item whose name is
not `rename`. -/
def flatNonRename : NMeta → Bool
  | NMeta.path _ => true
  | NMeta.nameValue n _ => n != "rename"
  | _ => false

/-! ### Shared lemmas -/

/-- Bind on a successful `Except` computation runs the continuation. -/
theorem except_bind_ok {E A B : Type} (a : A) (f : A → Except E B) :
    (Except.ok a >>= f) = f a := rfl

/-- Bind on a failed `Except` computation propagates the error. -/
theorem except_bind_error {E A B : Type} (e : E) (f : A → Except E B) :
    ((Except.error e : Except E A) >>= f) = Except.error e := rfl

/-- Inversion for a successful `Except` bind: the first computation
succeeded and the continuation succeeded on its value. -/
theorem except_bind_eq_ok {E A B : Type} {x : Except E A} {f : A → Except E B} {b : B}
    (h : (x >>= f) = Except.ok b) : ∃ a, x = Except.ok a ∧ f a = Except.ok b := by
  cases x with
  | error e => rw [except_bind_error] at h; exact Except.noConfusion h
  | ok a => exact ⟨a, rfl, h⟩

/-- `pure` on `Except` is `Except.ok`. -/
theorem except_pure_eq_ok {E A : Type} (a : A) : (pure a : Except E A) = Except.ok a := rfl

/-- `Functor.map` on a successful `Except` computation maps the value. -/
theorem except_map_ok {E A B : Type} (f : A → B) (a : A) :
    (f <$> (Except.ok a : Except E A)) = Except.ok (f a) := rfl

/-- `Functor.map` on a failed `Except` computation propagates the error. -/
theorem except_map_error {E A B : Type} (f : A → B) (e : E) :
    (f <$> (Except.error e : Except E A)) = (Except.error e : Except E B) := rfl

/-- Inversion for a successful `emptyCheck`: the state is returned
unchanged and the `has_validate`/empty-validators condition is false. -/
theorem emptyCheck_ok {st st' : FVState} (h : emptyCheck st = Except.ok st') :
    st' = st ∧ (st.has_validate && st.validators.isEmpty) = false := by
  unfold emptyCheck at h
  split at h
  case isTrue => exact Except.noConfusion h
  case isFalse hc =>
    cases h
    exact ⟨rfl, by simpa using hc⟩

/-- Inversion for a successful `processSerdeList`: only the external field
name can change. -/
theorem processSerdeList_ok {st st' : FVState} {nested : List NMeta}
    (h : processSerdeList st nested = Except.ok st') :
    st'.validators = st.validators ∧ st'.has_validate = st.has_validate := by
  unfold processSerdeList at h
  split at h
  case h_1 => exact Except.noConfusion h
  case h_2 => cases h; exact ⟨rfl, rfl⟩
  case h_3 => cases h; exact ⟨rfl, rfl⟩

/-- Inversion for a successful `processValidateList`: `has_validate` and
the external name are unchanged, and when `has_validate` is set the
resulting validator list is non-empty (the `emptyCheck`). -/
theorem processValidateList_ok {rid ft : String} {ftypes : List (String × String)}
    {st st' : FVState} {nested : List NMeta}
    (h : processValidateList rid ft ftypes st nested = Except.ok st') :
    st'.has_validate = st.has_validate ∧ st'.field_ident = st.field_ident ∧
      (st.has_validate = true → st'.validators ≠ []) := by
  unfold processValidateList at h
  obtain ⟨vs, hfold, hec⟩ := except_bind_eq_ok h
  obtain ⟨rfl, hcnd⟩ := emptyCheck_ok hec
  refine ⟨rfl, rfl, fun hv hnil => ?_⟩
  rw [Bool.and_eq_false_iff] at hcnd
  rcases hcnd with hcv | hce
  · rw [hv] at hcv; exact Bool.noConfusion hcv
  · rw [hnil] at hce; simp at hce

/-- An invariant preserved by every successful step of an `Except`-valued
fold is preserved by the whole fold. -/
theorem foldlM_except_inv {σ α : Type} (f : σ → α → Except Failure σ) (P : σ → Prop)
    (hf : ∀ s a s', P s → f s a = Except.ok s' → P s') :
    ∀ (l : List α) (s s' : σ), P s → l.foldlM f s = Except.ok s' → P s' := by
  intro l
  induction l with
  | nil =>
    intro s s' hs h
    simp only [List.foldlM_nil] at h
    cases h
    exact hs
  | cons a rest ih =>
    intro s s' hs h
    rw [List.foldlM_cons] at h
    cases hfa : f s a with
    | error e =>
      rw [hfa, except_bind_error] at h
      exact Except.noConfusion h
    | ok s1 =>
      rw [hfa, except_bind_ok] at h
      exact ih s1 s' (hf s a s1 hs hfa) h

/-! ### Claim theorems -/

/-- Claim C8: a struct-level `#[validate]` attribute whose argument list is
empty makes `find_struct_validation` index `nested[0]` out of bounds — a
Rust panic rather than a descriptive compilation diagnostic. -/
theorem c8_empty_struct_attr_panics :
    find_struct_validation (structValidateAttr []) =
      Except.error (Failure.panicked "index out of bounds: the len is 0 but the index is 0") :=
  rfl

/-- Claim C9: a serde `rename` intent whose literal value is not a string
makes `find_original_field_name` unwrap a failed literal-to-string
conversion — a Rust panic rather than a compilation error. -/
theorem c9_rename_nonstring_panics :
    find_original_field_name [NMeta.nameValue "rename" (Lit.int 5)] =
      Except.error (Failure.panicked "called `Option::unwrap()` on a `None` value") := by
  simp [find_original_field_name, lit_to_string]

/-- Claim C10: field-type normalization strips spaces and keeps the `&`
marker only when the reference has an explicit lifetime, so a reference
type without a lifetime normalizes to the same string as the referenced
type itself, and `must_match` between such a pair passes the type-equality
check. -/
theorem c10_reference_normalization (s l : String) :
    normType (SynType.reference none (SynType.pathTy s)) = normType (SynType.pathTy s) ∧
    normType (SynType.reference (some l) (SynType.pathTy s)) =
      Except.ok ("&" ++ stripSpaces s) ∧
    find_fields_type
        [⟨"a", SynType.pathTy s, []⟩, ⟨"b", SynType.reference none (SynType.pathTy s), []⟩]
      = Except.ok [("a", stripSpaces s), ("b", stripSpaces s)] ∧
    processMetaItem "a" (stripSpaces s) [("a", stripSpaces s), ("b", stripSpaces s)]
        (NMeta.nameValue "must_match" (Lit.str "b"))
      = Except.ok [FieldValidation.new (Validator.mustMatch "b")] := by
  refine ⟨rfl, rfl, rfl, ?_⟩
  simp [processMetaItem, lit_to_string, lookupType, assert_type_matches, except_bind_ok]

/-- Claim C7: a bare field validation intent (`#[validate]` parsing to a
path with no arguments) produces exactly one `Nested` validator for the
field, and `required_nested` expands to `Required` followed by `Nested` in
that fixed order. -/
theorem c7_nested_defaults (ident : String) (ty : SynType)
    (ftypes : List (String × String)) (ft : String)
    (hft : lookupType ftypes ident = some ft)
    (rid ft2 : String) (ftypes2 : List (String × String)) :
    find_validators_for_field ⟨ident, ty, [⟨"validate", NMeta.path "validate"⟩]⟩ ftypes
      = Except.ok (ident, [FieldValidation.new Validator.nested]) ∧
    processMetaItem rid ft2 ftypes2 (NMeta.path "required_nested")
      = Except.ok
          [FieldValidation.new Validator.required, FieldValidation.new Validator.nested] := by
  constructor
  · simp [find_validators_for_field, hft, processAttr, emptyCheck, except_bind_ok]
  · rfl

/-- Claim C4: `must_match` referencing a field that does not exist, or that
exists with a different normalized type descriptor, is a fatal type error;
when the referenced field exists with an equal type, extraction succeeds —
in both the `must_match = "other"` name–value form and the
`must_match(other = "...")` list form. -/
theorem c4_must_match_types (rid ft : String) (ftypes : List (String × String))
    (missing diff same tdiff : String) (ty : SynType)
    (h0 : lookupType ftypes rid = some ft)
    (h1 : lookupType ftypes missing = none)
    (h2 : lookupType ftypes diff = some tdiff)
    (h3 : tdiff ≠ ft)
    (h4 : lookupType ftypes same = some ft) :
    isTypeErrorResult
        (processMetaItem rid ft ftypes (NMeta.nameValue "must_match" (Lit.str missing)))
      = true ∧
    isTypeErrorResult
        (processMetaItem rid ft ftypes
          (NMeta.list "must_match" [NMeta.nameValue "other" (Lit.str missing)]))
      = true ∧
    isTypeErrorResult
        (processMetaItem rid ft ftypes (NMeta.nameValue "must_match" (Lit.str diff)))
      = true ∧
    isTypeErrorResult
        (processMetaItem rid ft ftypes
          (NMeta.list "must_match" [NMeta.nameValue "other" (Lit.str diff)]))
      = true ∧
    processMetaItem rid ft ftypes (NMeta.nameValue "must_match" (Lit.str same))
      = Except.ok [FieldValidation.new (Validator.mustMatch same)] ∧
    processMetaItem rid ft ftypes
        (NMeta.list "must_match" [NMeta.nameValue "other" (Lit.str same)])
      = Except.ok [FieldValidation.new (Validator.mustMatch same)] ∧
    find_validators_for_field
        ⟨rid, ty, [⟨"validate",
          NMeta.list "validate" [NMeta.nameValue "must_match" (Lit.str same)]⟩]⟩ ftypes
      = Except.ok (rid, [FieldValidation.new (Validator.mustMatch same)]) := by
  have hne : (ft == tdiff) = false := by
    simp only [beq_eq_false_iff_ne, ne_eq]
    exact fun hc => h3 hc.symm
  have hne' : ¬(ft = tdiff) := fun hc => h3 hc.symm
  refine ⟨?_, ?_, ?_, ?_, ?_, ?_, ?_⟩
  · simp [processMetaItem, lit_to_string, h1, assert_type_matches, except_bind_error,
      isTypeErrorResult]
  · simp [processMetaItem, extract_one_arg_validation, lit_to_string, h1,
      assert_type_matches, FieldValidation.new, except_bind_ok, except_bind_error,
      isTypeErrorResult]
  · simp [processMetaItem, lit_to_string, h2, assert_type_matches, hne,
      except_bind_error, isTypeErrorResult]
  · simp [processMetaItem, extract_one_arg_validation, lit_to_string, h2,
      assert_type_matches, hne, hne', FieldValidation.new, except_bind_ok,
      except_bind_error, isTypeErrorResult]
  · simp [processMetaItem, lit_to_string, h4, assert_type_matches, except_bind_ok]
  · simp [processMetaItem, extract_one_arg_validation, lit_to_string, h4,
      assert_type_matches, FieldValidation.new, except_bind_ok]
  · simp [find_validators_for_field, h0, processAttr, processValidateList, processMetaItem,
      lit_to_string, h4, assert_type_matches, emptyCheck, FieldValidation.new,
      except_bind_ok, except_map_ok]

/-- Claim C2, counterexample: a `must_match(other = ...)` intent on field
`a : String` referencing `b : bool` (type-incompatible) with an extra
malformed argument.  The claim predicts the type error surfaces first; the
code extracts the argument first, so the result is an argument-shape error
and not a type error, even though the type-compatibility check fails on
this pair. -/
theorem c2_counterexample :
    isTypeErrorResult
        (assert_type_matches "a" "String" (lookupType [("a", "String"), ("b", "bool")] "b"))
      = true ∧
    isArgErrorResult
        (processMetaItem "a" "String" [("a", "String"), ("b", "bool")]
          (NMeta.list "must_match"
            [NMeta.nameValue "other" (Lit.str "b"), NMeta.nameValue "bogus" (Lit.int 1)]))
      = true ∧
    isTypeErrorResult
        (processMetaItem "a" "String" [("a", "String"), ("b", "bool")]
          (NMeta.list "must_match"
            [NMeta.nameValue "other" (Lit.str "b"), NMeta.nameValue "bogus" (Lit.int 1)]))
      = false := by
  refine ⟨rfl, rfl, rfl⟩

/-- Claim C2, amended: for the list forms `length(...)` and `range(...)`
the type-compatibility check runs before argument extraction, so a type
error preempts any argument error; for `must_match(other = ...)` the
argument is extracted before the type-compatibility check, so an
argument-extraction error preempts the type check. -/
theorem c2_amended_order (rid ft : String) (ftypes : List (String × String))
    (items1 items2 items3 : List NMeta) (e1 e2 e3 : Failure)
    (h1 : assert_has_len rid ft = Except.error e1)
    (h2 : assert_has_range rid ft = Except.error e2)
    (h3 : extract_one_arg_validation "other" Validator.mustMatch items3 = Except.error e3) :
    processMetaItem rid ft ftypes (NMeta.list "length" items1) = Except.error e1 ∧
    processMetaItem rid ft ftypes (NMeta.list "range" items2) = Except.error e2 ∧
    processMetaItem rid ft ftypes (NMeta.list "must_match" items3) = Except.error e3 := by
  refine ⟨?_, ?_, ?_⟩
  · simp [processMetaItem, h1, except_bind_error]
  · simp [processMetaItem, h2, except_bind_error]
  · simp [processMetaItem, h3, except_bind_error]

/-- Witness for the amended C2 ordering at a concrete field `a : bool` with
malformed `must_match` arguments. -/
theorem c2_amended_order_witness :
    processMetaItem "a" "bool" [("a", "bool")]
        (NMeta.list "length" [NMeta.nameValue "min" (Lit.int 1)])
      = Except.error (Failure.typeError "field `a` of type `bool` has no length capability") ∧
    processMetaItem "a" "bool" [("a", "bool")]
        (NMeta.list "range" [NMeta.nameValue "min" (Lit.str "x")])
      = Except.error (Failure.typeError "field `a` of type `bool` has no ordering capability") ∧
    processMetaItem "a" "bool" [("a", "bool")] (NMeta.list "must_match" [])
      = Except.error (Failure.argError "missing required argument `other`") :=
  c2_amended_order "a" "bool" [("a", "bool")]
    [NMeta.nameValue "min" (Lit.int 1)] [NMeta.nameValue "min" (Lit.str "x")] []
    (Failure.typeError "field `a` of type `bool` has no length capability")
    (Failure.typeError "field `a` of type `bool` has no ordering capability")
    (Failure.argError "missing required argument `other`")
    rfl rfl rfl

/-- Witness for C7 at a concrete field `a : String`. -/
theorem c7_nested_defaults_witness :
    find_validators_for_field
        ⟨"a", SynType.pathTy "String", [⟨"validate", NMeta.path "validate"⟩]⟩ [("a", "String")]
      = Except.ok ("a", [FieldValidation.new Validator.nested]) ∧
    processMetaItem "b" "T" [] (NMeta.path "required_nested")
      = Except.ok
          [FieldValidation.new Validator.required, FieldValidation.new Validator.nested] :=
  c7_nested_defaults "a" (SynType.pathTy "String") [("a", "String")] "String" rfl "b" "T" []

/-- Witness for C4 on the record `{ a : String, b : String, c : bool }`
with `z` as the missing field name. -/
theorem c4_must_match_types_witness :
    isTypeErrorResult
        (processMetaItem "a" "String" [("a", "String"), ("b", "String"), ("c", "bool")]
          (NMeta.nameValue "must_match" (Lit.str "z")))
      = true ∧
    isTypeErrorResult
        (processMetaItem "a" "String" [("a", "String"), ("b", "String"), ("c", "bool")]
          (NMeta.list "must_match" [NMeta.nameValue "other" (Lit.str "z")]))
      = true ∧
    isTypeErrorResult
        (processMetaItem "a" "String" [("a", "String"), ("b", "String"), ("c", "bool")]
          (NMeta.nameValue "must_match" (Lit.str "c")))
      = true ∧
    isTypeErrorResult
        (processMetaItem "a" "String" [("a", "String"), ("b", "String"), ("c", "bool")]
          (NMeta.list "must_match" [NMeta.nameValue "other" (Lit.str "c")]))
      = true ∧
    processMetaItem "a" "String" [("a", "String"), ("b", "String"), ("c", "bool")]
        (NMeta.nameValue "must_match" (Lit.str "b"))
      = Except.ok [FieldValidation.new (Validator.mustMatch "b")] ∧
    processMetaItem "a" "String" [("a", "String"), ("b", "String"), ("c", "bool")]
        (NMeta.list "must_match" [NMeta.nameValue "other" (Lit.str "b")])
      = Except.ok [FieldValidation.new (Validator.mustMatch "b")] ∧
    find_validators_for_field
        ⟨"a", SynType.pathTy "String", [⟨"validate",
          NMeta.list "validate" [NMeta.nameValue "must_match" (Lit.str "b")]⟩]⟩
        [("a", "String"), ("b", "String"), ("c", "bool")]
      = Except.ok ("a", [FieldValidation.new (Validator.mustMatch "b")]) :=
  c4_must_match_types "a" "String" [("a", "String"), ("b", "String"), ("c", "bool")]
    "z" "c" "b" "bool" (SynType.pathTy "String") rfl rfl rfl (by decide) rfl

/-- The facts a successful iteration of the attribute loop guarantees:
`has_validate` is monotone, a `validate` attribute sets it, and the
"non-empty validators whenever `has_validate` is set" invariant is
preserved. -/
theorem processAttr_ok_facts (rid ft : String) (ftypes : List (String × String))
    (st st' : FVState) (attr : Attribute)
    (h : processAttr rid ft ftypes st attr = Except.ok st') :
    (st.has_validate = true → st'.has_validate = true) ∧
    (attr.path = "validate" → st'.has_validate = true) ∧
    ((st.has_validate = true → st.validators ≠ []) →
      st'.has_validate = true → st'.validators ≠ []) := by
  obtain ⟨p, m⟩ := attr
  by_cases hskip : (p != "validate" && p != "serde") = true
  · rw [processAttr, if_pos hskip] at h
    cases h
    have hne : p ≠ "validate" := by
      rcases Bool.and_eq_true_iff.mp hskip with ⟨h1, _⟩
      simpa using h1
    exact ⟨fun hv => hv, fun hp => absurd hp hne, fun hi => hi⟩
  · cases m with
    | list nmName args =>
      by_cases hserde : (p == "serde") = true
      · have hp : p = "serde" := by simpa using hserde
        have hpv : (p == "validate") = false := by simp [hp]
        rw [processAttr, if_neg hskip] at h
        simp only [hserde, if_true] at h
        obtain ⟨hvals, hhv⟩ := processSerdeList_ok h
        refine ⟨fun hv => ?_, fun hpe => absurd hpe (by simp [hp]), fun hi hv => ?_⟩
        · rw [hhv]; simp [hpv, hv]
        · rw [hvals]
          apply hi
          rw [hhv] at hv
          simpa [hpv] using hv
      · rw [processAttr, if_neg hskip] at h
        simp only [hserde, if_false, Bool.false_eq_true] at h
        obtain ⟨hhv, _, hinv⟩ := processValidateList_ok h
        have hpv : (p == "validate") = true := by
          rcases Bool.and_eq_false_iff.mp (Bool.not_eq_true _ |>.mp hskip) with h1 | h1
          · simpa using h1
          · exact absurd (by simpa using h1) (by simpa using hserde)
        refine ⟨fun hv => ?_, fun hpe => ?_, fun hi hv => ?_⟩
        · rw [hhv]; simp [hpv]
        · rw [hhv]; simp [hpv]
        · exact hinv (by simp [hpv])
    | path nm =>
      rw [processAttr, if_neg hskip] at h
      obtain ⟨rfl, hcnd⟩ := emptyCheck_ok h
      refine ⟨fun hv => by simp [hv], fun hpe => ?_, fun hi hv => by simp⟩
      simp only [Attribute.path] at hpe
      simp [hpe]
    | nameValue nm l =>
      rw [processAttr, if_neg hskip] at h
      exact Except.noConfusion h
    | lit l =>
      rw [processAttr, if_neg hskip] at h
      exact Except.noConfusion h

/-- The attribute-loop facts lifted to the whole fold: the invariant is
preserved, `has_validate` is monotone, and any `validate` attribute in the
list sets it. -/
theorem fold_attrs_facts (rid ft : String) (ftypes : List (String × String)) :
    ∀ (l : List Attribute) (st st' : FVState),
      l.foldlM (processAttr rid ft ftypes) st = Except.ok st' →
      ((st.has_validate = true → st.validators ≠ []) →
        st'.has_validate = true → st'.validators ≠ []) ∧
      (st.has_validate = true → st'.has_validate = true) ∧
      ((∃ a ∈ l, a.path = "validate") → st'.has_validate = true) := by
  intro l
  induction l with
  | nil =>
    intro st st' h
    simp only [List.foldlM_nil] at h
    cases h
    exact ⟨fun hi => hi, fun hv => hv, fun hex => absurd hex (by simp)⟩
  | cons a rest ih =>
    intro st st' h
    rw [List.foldlM_cons] at h
    cases hstep : processAttr rid ft ftypes st a with
    | error e =>
      rw [hstep, except_bind_error] at h
      exact Except.noConfusion h
    | ok s1 =>
      rw [hstep, except_bind_ok] at h
      obtain ⟨mono1, sets1, inv1⟩ := processAttr_ok_facts rid ft ftypes st s1 a hstep
      obtain ⟨invR, monoR, setsR⟩ := ih s1 st' h
      refine ⟨fun hi => invR (inv1 hi), fun hv => monoR (mono1 hv), fun hex => ?_⟩
      rcases hex with ⟨b, hb, hbv⟩
      rcases List.mem_cons.mp hb with rfl | hbr
      · exact monoR (sets1 hbv)
      · exact setsR ⟨b, hbr, hbv⟩

/-- Claim C6: a field that carries at least one `validate` attribute cannot
successfully extract an empty validator list — and a field whose only
attribute is `#[validate()]` (empty list) fails with the fatal
`it needs at least one validator` diagnostic. -/
theorem c6_empty_validators (field : Field) (ftypes : List (String × String))
    (nameOut : String) (vs : List FieldValidation) (a : Attribute)
    (ha : a ∈ field.attrs) (hav : a.path = "validate")
    (hok : find_validators_for_field field ftypes = Except.ok (nameOut, vs))
    (ident2 : String) (ty2 : SynType) (ftypes2 : List (String × String)) (ft2 : String)
    (hft2 : lookupType ftypes2 ident2 = some ft2) :
    vs ≠ [] ∧
    find_validators_for_field ⟨ident2, ty2, [⟨"validate", NMeta.list "validate" []⟩]⟩ ftypes2
      = Except.error (Failure.abort "it needs at least one validator") := by
  constructor
  · unfold find_validators_for_field at hok
    cases hlk : lookupType ftypes field.ident with
    | none =>
      simp only [hlk] at hok
      exact Except.noConfusion hok
    | some ft =>
      simp only [hlk] at hok
      obtain ⟨st, hfold, hpure⟩ := except_bind_eq_ok hok
      simp only [except_pure_eq_ok, Except.ok.injEq, Prod.mk.injEq] at hpure
      obtain ⟨inv, _, sets⟩ :=
        fold_attrs_facts field.ident ft ftypes field.attrs ⟨field.ident, [], false⟩ st hfold
      have hne := inv (fun hfalse => by simp at hfalse) (sets ⟨a, ha, hav⟩)
      rw [hpure.2] at hne
      exact hne
  · simp [find_validators_for_field, hft2, processAttr, processValidateList, emptyCheck,
      except_bind_ok, except_map_error]

/-- Witness for C6: the field `a : String` with `#[validate(email)]`
extracts a non-empty validator list, and with `#[validate()]` fails. -/
theorem c6_empty_validators_witness :
    ([FieldValidation.new Validator.email] : List FieldValidation) ≠ [] ∧
    find_validators_for_field
        ⟨"b", SynType.pathTy "String", [⟨"validate", NMeta.list "validate" []⟩]⟩ [("b", "String")]
      = Except.error (Failure.abort "it needs at least one validator") :=
  c6_empty_validators
    ⟨"a", SynType.pathTy "String", [⟨"validate", NMeta.list "validate" [NMeta.path "email"]⟩]⟩
    [("a", "String")] "a" [FieldValidation.new Validator.email]
    ⟨"validate", NMeta.list "validate" [NMeta.path "email"]⟩ (by simp) rfl rfl
    "b" (SynType.pathTy "String") [("b", "String")] "String" rfl

/-- `find_original_field_name` skips over items that are neither renames
nor grouped intents. -/
theorem fofn_skips (pre : List NMeta) (h : ∀ i ∈ pre, flatNonRename i = true)
    (rest : List NMeta) :
    find_original_field_name (pre ++ rest) = find_original_field_name rest := by
  induction pre with
  | nil => simp
  | cons i pre ih =>
    have hi := h i (by simp)
    have htail : ∀ j ∈ pre, flatNonRename j = true := fun j hj => h j (by simp [hj])
    cases i with
    | path n =>
      rw [List.cons_append]
      rw [show find_original_field_name (NMeta.path n :: (pre ++ rest))
          = find_original_field_name (pre ++ rest) from by simp [find_original_field_name]]
      exact ih htail
    | nameValue n l =>
      have hn : (n == "rename") = false := by simpa [flatNonRename] using hi
      rw [List.cons_append]
      rw [show find_original_field_name (NMeta.nameValue n l :: (pre ++ rest))
          = find_original_field_name (pre ++ rest) from by
        simp [find_original_field_name, hn]]
      exact ih htail
    | list n args => simp [flatNonRename] at hi
    | lit l => simp [flatNonRename] at hi

/-- Claim C3, counterexample: a field `internal_id` whose serde attribute
holds a grouped intent (with no rename inside) followed by
`rename = "id"`.  The first rename in declaration order is `id`, but the
extractor returns the recursive search of the grouped intent and ignores
the later rename, so the field keeps its declaration name. -/
theorem c3_counterexample :
    find_original_field_name
        [NMeta.list "default" [], NMeta.nameValue "rename" (Lit.str "id")]
      = Except.ok none ∧
    find_validators_for_field
        ⟨"internal_id", SynType.pathTy "String",
          [⟨"serde", NMeta.list "serde"
              [NMeta.list "default" [], NMeta.nameValue "rename" (Lit.str "id")]⟩,
           ⟨"validate", NMeta.list "validate" [NMeta.path "email"]⟩]⟩
        [("internal_id", "String")]
      = Except.ok ("internal_id", [FieldValidation.new Validator.email]) ∧
    ("internal_id" : String) ≠ "id" := by
  refine ⟨by simp [find_original_field_name], ?_, by decide⟩
  simp [find_validators_for_field, lookupType, processAttr, processSerdeList,
    processValidateList, processMetaItem, find_original_field_name, emptyCheck,
    assert_string_type, string_like_types, except_bind_ok, except_map_ok,
    except_pure_eq_ok]

/-- Claim C3, amended: the extractor scans serde items in declaration order
and uses the first `rename` found, except that on reaching a grouped intent
it commits to the recursive search of that group (even when the group
contains no rename, ignoring later items; the recursion is not limited to
one level).  When a rename value is resolved, the extractor returns it as
the field's external name, and the field phase keys every error for a field
under the name the plan carries for it. -/
theorem c3_rename_resolution
    (pre : List NMeta) (hpre : ∀ i ∈ pre, flatNonRename i = true)
    (s : String) (rest : List NMeta)
    (pre2 : List NMeta) (hpre2 : ∀ i ∈ pre2, flatNonRename i = true)
    (g : String) (gargs rest2 : List NMeta)
    (ident : String) (ty : SynType) (ftypes : List (String × String)) (ft : String)
    (hft : lookupType ftypes ident = some ft)
    (serdeItems vItems : List NMeta) (s2 nameOut : String)
    (vsOut : List FieldValidation)
    (hrn : find_original_field_name serdeItems = Except.ok (some s2))
    (hok : find_validators_for_field
        ⟨ident, ty, [⟨"serde", NMeta.list "serde" serdeItems⟩,
                     ⟨"validate", NMeta.list "validate" vItems⟩]⟩ ftypes
      = Except.ok (nameOut, vsOut))
    (o : Oracle) (nm : String) (fvs : List FieldValidation) (x : String × String)
    (hx : x ∈ runFieldOne o nm fvs) :
    find_original_field_name (pre ++ NMeta.nameValue "rename" (Lit.str s) :: rest)
      = Except.ok (some s) ∧
    find_original_field_name (pre2 ++ NMeta.list g gargs :: rest2)
      = find_original_field_name gargs ∧
    nameOut = s2 ∧
    x.1 = nm := by
  refine ⟨?_, ?_, ?_, ?_⟩
  · rw [fofn_skips pre hpre]
    simp [find_original_field_name, lit_to_string]
  · rw [fofn_skips pre2 hpre2]
    simp [find_original_field_name]
  · unfold find_validators_for_field at hok
    simp only [hft] at hok
    obtain ⟨st, hfold, hpure⟩ := except_bind_eq_ok hok
    rw [List.foldlM_cons] at hfold
    have h1 : processAttr ident ft ftypes ⟨ident, [], false⟩
        ⟨"serde", NMeta.list "serde" serdeItems⟩ = Except.ok ⟨s2, [], false⟩ := by
      simp [processAttr, processSerdeList, hrn]
    rw [h1, except_bind_ok, List.foldlM_cons] at hfold
    obtain ⟨st1, hstep2, hrest⟩ := except_bind_eq_ok hfold
    simp only [List.foldlM_nil, except_pure_eq_ok, Except.ok.injEq] at hrest
    simp only [processAttr] at hstep2
    have hfi : st1.field_ident = s2 := (processValidateList_ok hstep2).2.1
    simp only [except_pure_eq_ok, Except.ok.injEq, Prod.mk.injEq] at hpure
    rw [← hpure.1, ← hrest, hfi]
  · induction fvs with
    | nil => simp [runFieldOne] at hx
    | cons v rest3 ih =>
      rw [runFieldOne] at hx
      cases hfc : o.fieldCheck nm v with
      | none => rw [hfc] at hx; exact ih hx
      | some code =>
        rw [hfc] at hx
        cases hvr : v.validator with
        | required =>
          rw [hvr] at hx
          simp only [List.mem_singleton] at hx
          rw [hx]
        | _ =>
          rw [hvr] at hx
          rcases List.mem_cons.mp hx with rfl | hx2
          · rfl
          · exact ih hx2

/-- Concrete oracle for the C3 witness: every field check fails with code
`code`, schema functions return nothing, nested validation succeeds. -/
def c3WitnessOracle : Oracle :=
  ⟨fun _ _ => some "code", fun _ => [], fun _ => Except.ok ()⟩

/-- Witness for the amended C3 on concrete serde items and a concrete
field. -/
theorem c3_rename_resolution_witness :
    find_original_field_name
        ([NMeta.path "default"] ++ NMeta.nameValue "rename" (Lit.str "id") :: [])
      = Except.ok (some "id") ∧
    find_original_field_name
        ([] ++ NMeta.list "default" [] :: [NMeta.nameValue "rename" (Lit.str "id")])
      = find_original_field_name [] ∧
    ("id" : String) = "id" ∧
    (("k", "code") : String × String).1 = "k" := by
  refine c3_rename_resolution
    [NMeta.path "default"] (by simp [flatNonRename]) "id" []
    [] (by simp) "default" [] [NMeta.nameValue "rename" (Lit.str "id")]
    "internal_id" (SynType.pathTy "String") [("internal_id", "String")] "String" rfl
    [NMeta.nameValue "rename" (Lit.str "id")] [NMeta.path "email"] "id" "id"
    [FieldValidation.new Validator.email]
    (by simp [find_original_field_name, lit_to_string])
    (by simp [find_validators_for_field, lookupType, processAttr, processSerdeList,
      processValidateList, processMetaItem, find_original_field_name, lit_to_string,
      emptyCheck, assert_string_type, string_like_types, except_bind_ok, except_map_ok,
      except_pure_eq_ok])
    c3WitnessOracle "k" [FieldValidation.new Validator.required] ("k", "code")
    (by simp [runFieldOne, c3WitnessOracle, FieldValidation.new])

/-- `isAbortResult` inverted: the step ended in a fatal `abort!`. -/
theorem isAbortResult_true_iff {A : Type} (x : Except Failure A) :
    isAbortResult x = true ↔ ∃ m, x = Except.error (Failure.abort m) := by
  cases x with
  | ok a => simp [isAbortResult]
  | error e => cases e <;> simp [isAbortResult]

/-- A well-formed `schema(...)` argument is processed successfully and has
the effect described by `applyOneSchemaArg`. -/
theorem processSchemaArg_good (st : SchemaValidation) (a : NMeta)
    (h : goodSchemaArg a = true) :
    processSchemaArg st a = Except.ok (applyOneSchemaArg st a) := by
  cases a with
  | path n => simp [goodSchemaArg] at h
  | lit l => simp [goodSchemaArg] at h
  | list n args => simp [goodSchemaArg] at h
  | nameValue n l =>
    simp only [goodSchemaArg] at h
    simp only [processSchemaArg, applyOneSchemaArg]
    split_ifs at h ⊢
    · rcases hls : lit_to_string l with _ | v
      · simp [hls] at h
      · simp
    · rcases hlb : lit_to_bool l with _ | v
      · simp [hlb] at h
      · simp
    · rcases hls : lit_to_string l with _ | v
      · simp [hls] at h
      · simp
    · rcases hls : lit_to_string l with _ | v
      · simp [hls] at h
      · simp

/-- An ill-formed `schema(...)` argument is a fatal `abort!`. -/
theorem processSchemaArg_bad (st : SchemaValidation) (a : NMeta)
    (h : goodSchemaArg a = false) :
    isAbortResult (processSchemaArg st a) = true := by
  cases a with
  | path n => rfl
  | lit l => rfl
  | list n args => rfl
  | nameValue n l =>
    simp only [goodSchemaArg] at h
    simp only [processSchemaArg]
    split_ifs at h ⊢
    · rcases hls : lit_to_string l with _ | v
      · rfl
      · simp [hls] at h
    · rcases hlb : lit_to_bool l with _ | v
      · rfl
      · simp [hlb] at h
    · rcases hls : lit_to_string l with _ | v
      · rfl
      · simp [hls] at h
    · rcases hls : lit_to_string l with _ | v
      · rfl
      · simp [hls] at h
    · rfl

/-- The `schema(...)` argument loop on well-formed arguments succeeds with
the folded effect. -/
theorem schemaArgs_fold_good : ∀ (args : List NMeta) (st : SchemaValidation),
    (∀ a ∈ args, goodSchemaArg a = true) →
    args.foldlM processSchemaArg st = Except.ok (args.foldl applyOneSchemaArg st) := by
  intro args
  induction args with
  | nil => intro st h; rfl
  | cons a rest ih =>
    intro st h
    rw [List.foldlM_cons, processSchemaArg_good st a (h a (by simp)), except_bind_ok,
      List.foldl_cons]
    exact ih _ (fun b hb => h b (by simp [hb]))

/-- The `schema(...)` argument loop with any ill-formed argument is a
fatal `abort!`. -/
theorem schemaArgs_fold_bad : ∀ (args : List NMeta) (st : SchemaValidation) (bad : NMeta),
    bad ∈ args → goodSchemaArg bad = false →
    isAbortResult (args.foldlM processSchemaArg st) = true := by
  intro args
  induction args with
  | nil => intro st bad hmem _; simp at hmem
  | cons a rest ih =>
    intro st bad hmem hbad
    rw [List.foldlM_cons]
    cases hga : goodSchemaArg a with
    | false =>
      rcases (isAbortResult_true_iff _).mp (processSchemaArg_bad st a hga) with ⟨m, hm⟩
      rw [hm, except_bind_error]
      rfl
    | true =>
      rw [processSchemaArg_good st a hga, except_bind_ok]
      rcases List.mem_cons.mp hmem with rfl | hr
      · rw [hga] at hbad; exact Bool.noConfusion hbad
      · exact ih _ bad hr hbad

/-- Claim C5: for struct-level intents only a grouped intent named `schema`
is accepted, with arguments `function` (string, required and non-empty),
`skip_on_field_errors` (bool, defaulting to `true`), `code` and `message`
(optional strings); any other top-level struct intent name, any unknown
argument name, a wrong literal shape, or a missing `function` is fatal;
multiple struct-level intents are all collected in declaration order. -/
theorem c5_schema_extraction
    (otherName : String) (otherArgs anyRest : List NMeta) (hn : otherName ≠ "schema")
    (badArgs rest2 : List NMeta) (bad : NMeta) (hmem : bad ∈ badArgs)
    (hbad : goodSchemaArg bad = false)
    (noFnArgs rest3 : List NMeta) (hgood3 : ∀ b ∈ noFnArgs, goodSchemaArg b = true)
    (hfn3 : (schemaArgsResult noFnArgs).function = "")
    (goodArgs rest4 : List NMeta) (hgood4 : ∀ b ∈ goodArgs, goodSchemaArg b = true)
    (hfn4 : (schemaArgsResult goodArgs).function ≠ "")
    (a1 a2 : Attribute) (v1 v2 : SchemaValidation)
    (hp1 : a1.path = "validate") (hp2 : a2.path = "validate")
    (hv1 : find_struct_validation a1 = Except.ok v1)
    (hv2 : find_struct_validation a2 = Except.ok v2) :
    isAbortResult (find_struct_validation
        (structValidateAttr (NMeta.list otherName otherArgs :: anyRest))) = true ∧
    isAbortResult (find_struct_validation
        (structValidateAttr (NMeta.list "schema" badArgs :: rest2))) = true ∧
    isAbortResult (find_struct_validation
        (structValidateAttr (NMeta.list "schema" noFnArgs :: rest3))) = true ∧
    find_struct_validation (structValidateAttr (NMeta.list "schema" goodArgs :: rest4))
      = Except.ok (schemaArgsResult goodArgs) ∧
    (schemaArgsResult []).skip_on_field_errors = true ∧
    find_struct_validations [a1, a2] = Except.ok [v1, v2] := by
  have hbne : (otherName != "schema") = true := by simpa using hn
  refine ⟨?_, ?_, ?_, ?_, rfl, ?_⟩
  · simp [find_struct_validation, structValidateAttr, hbne, isAbortResult]
  · rcases (isAbortResult_true_iff _).mp
        (schemaArgs_fold_bad badArgs defaultSchemaValidation bad hmem hbad) with ⟨m, hm⟩
    simp [find_struct_validation, structValidateAttr, hm, except_bind_error, isAbortResult]
  · have hfold := schemaArgs_fold_good noFnArgs defaultSchemaValidation hgood3
    have hie : (noFnArgs.foldl applyOneSchemaArg defaultSchemaValidation).function.isEmpty
        = true := by
      rw [show noFnArgs.foldl applyOneSchemaArg defaultSchemaValidation
          = schemaArgsResult noFnArgs from rfl, hfn3]
      rfl
    simp [find_struct_validation, structValidateAttr, hfold, except_bind_ok, hie,
      isAbortResult]
  · have hfold := schemaArgs_fold_good goodArgs defaultSchemaValidation hgood4
    have hie : (goodArgs.foldl applyOneSchemaArg defaultSchemaValidation).function.isEmpty
        = false := by
      rcases hb : (goodArgs.foldl applyOneSchemaArg defaultSchemaValidation).function.isEmpty
          with _ | _
      · rfl
      · exact absurd ((String.isEmpty_iff _).mp hb) hfn4
    simp [find_struct_validation, structValidateAttr, hfold, except_bind_ok, hie,
      schemaArgsResult]
  · have hf : List.filter (fun a => a.path == "validate") [a1, a2] = [a1, a2] := by
      simp [hp1, hp2]
    rw [find_struct_validations, hf]
    simp [List.mapM, List.mapM.loop, hv1, hv2, except_bind_ok, except_pure_eq_ok]

/-- Witness for C5 on concrete struct-level attributes. -/
theorem c5_schema_extraction_witness :
    isAbortResult (find_struct_validation
        (structValidateAttr (NMeta.list "other" [] :: []))) = true ∧
    isAbortResult (find_struct_validation
        (structValidateAttr
          (NMeta.list "schema" [NMeta.nameValue "bogus" (Lit.str "x")] :: []))) = true ∧
    isAbortResult (find_struct_validation
        (structValidateAttr
          (NMeta.list "schema" [NMeta.nameValue "code" (Lit.str "c")] :: []))) = true ∧
    find_struct_validation
        (structValidateAttr
          (NMeta.list "schema"
            [NMeta.nameValue "function" (Lit.str "check"),
             NMeta.nameValue "skip_on_field_errors" (Lit.boolean false)] :: []))
      = Except.ok (schemaArgsResult
          [NMeta.nameValue "function" (Lit.str "check"),
           NMeta.nameValue "skip_on_field_errors" (Lit.boolean false)]) ∧
    (schemaArgsResult []).skip_on_field_errors = true ∧
    find_struct_validations
        [structValidateAttr
          [NMeta.list "schema" [NMeta.nameValue "function" (Lit.str "f1")]],
         structValidateAttr
          [NMeta.list "schema" [NMeta.nameValue "function" (Lit.str "f2")]]]
      = Except.ok [⟨"f1", true, none, none⟩, ⟨"f2", true, none, none⟩] :=
  c5_schema_extraction "other" [] [] (by decide)
    [NMeta.nameValue "bogus" (Lit.str "x")] [] (NMeta.nameValue "bogus" (Lit.str "x"))
    (by simp) (by decide)
    [NMeta.nameValue "code" (Lit.str "c")] [] (by decide) rfl
    [NMeta.nameValue "function" (Lit.str "check"),
     NMeta.nameValue "skip_on_field_errors" (Lit.boolean false)] [] (by decide) (by decide)
    (structValidateAttr [NMeta.list "schema" [NMeta.nameValue "function" (Lit.str "f1")]])
    (structValidateAttr [NMeta.list "schema" [NMeta.nameValue "function" (Lit.str "f2")]])
    ⟨"f1", true, none, none⟩ ⟨"f2", true, none, none⟩ rfl rfl rfl rfl

/-- Merging one nested result into a packaged accumulator appends its
entries to the accumulator. -/
theorem mergeOne_mkRes (errs : List (String × String)) (name : String)
    (child : Except (List String) Unit) :
    mergeOne (mkRes errs) name child
      = mkRes (errs ++ (match child with
          | Except.ok _ => []
          | Except.error cs => cs.map (fun c => (name, c)))) := by
  cases child with
  | ok u => simp [mergeOne]
  | error cs =>
    cases errs with
    | nil => rfl
    | cons e es => rfl

/-- Folding the nested-phase merges over a packaged accumulator appends the
nested-phase errors. -/
theorem merge_fold (o : Oracle) (names : List String) :
    ∀ errs, names.foldl (fun res name => mergeOne res name (o.nestedCheck name)) (mkRes errs)
      = mkRes (errs ++ nestedErrors o names) := by
  induction names with
  | nil => intro errs; simp [nestedErrors]
  | cons n ns ih =>
    intro errs
    rw [List.foldl_cons, mergeOne_mkRes, ih, nestedErrors, List.append_assoc]

/-- The emitted routine computes exactly the packaged three-phase
accumulator. -/
theorem validateFn_eq (plan : Plan) (o : Oracle) :
    validateFn plan o = mkRes (phaseErrors plan o) := by
  show plan.nestedOrder.foldl _ (mkRes _) = _
  rw [merge_fold]
  unfold phaseErrors
  rw [List.append_assoc]

/-- Claim C1: for every record type that compiles, the generated `validate`
routine runs the field phase, then the schema phase, then the nested phase
last (a `Nested` validator is routed to the nested phase wherever it
appears among a field's declared validators), and it succeeds exactly when
the accumulator after all three phases is empty. -/
theorem c1_phase_order (fields : List Field) (structAttrs : List Attribute)
    (plan : Plan) (o : Oracle)
    (_hc : impl_validate_plan fields structAttrs = Except.ok plan)
    (nm : String) (vs1 vs2 : List FieldValidation)
    (hnest : vs1.filter (fun v => isNestedV v) = vs2.filter (fun v => isNestedV v))
    (hrest : vs1.filter (fun v => !isNestedV v) = vs2.filter (fun v => !isNestedV v)) :
    validateFn plan o = mkRes (phaseErrors plan o) ∧
    (validateFn plan o = Except.ok () ↔ phaseErrors plan o = []) ∧
    routeField nm vs1 = routeField nm vs2 := by
  refine ⟨validateFn_eq plan o, ?_, ?_⟩
  · rw [validateFn_eq]
    unfold mkRes
    cases hpe : phaseErrors plan o with
    | nil => simp
    | cons e es => simp
  · unfold routeField
    rw [hnest, hrest]

/-- Concrete oracle for the C1 witness: the field check fails on `Required`
validators only, the schema function reports one record-level entry, nested
validation of field `a` fails with one code. -/
def c1WitnessOracle : Oracle :=
  ⟨fun _ v => match v.validator with
    | Validator.required => some "required"
    | _ => none,
   fun _ => [("__all__", "schema_failed")],
   fun _ => Except.error ["nested_code"]⟩

/-- The plan the C1 witness validates against: the output of
`impl_validate_plan` on a record with fields `a` (declared `email` and
`required` validators) and `a2` (bare `#[validate]`, hence nested). -/
def c1WitnessPlan : Plan :=
  ⟨[("a", [FieldValidation.new Validator.email, FieldValidation.new Validator.required]),
    ("a2", [])], ["a2"], []⟩

/-- Witness for C1: a concrete compiled record and oracle. -/
theorem c1_phase_order_witness :
    validateFn c1WitnessPlan c1WitnessOracle
      = mkRes (phaseErrors c1WitnessPlan c1WitnessOracle) ∧
    (validateFn c1WitnessPlan c1WitnessOracle = Except.ok ()
      ↔ phaseErrors c1WitnessPlan c1WitnessOracle = []) ∧
    routeField "a"
        [FieldValidation.new Validator.nested, FieldValidation.new Validator.email]
      = routeField "a"
        [FieldValidation.new Validator.email, FieldValidation.new Validator.nested] :=
  c1_phase_order
    [⟨"a", SynType.pathTy "String",
      [⟨"validate", NMeta.list "validate" [NMeta.path "email", NMeta.path "required"]⟩]⟩,
     ⟨"a2", SynType.pathTy "String", [⟨"validate", NMeta.path "validate"⟩]⟩]
    []
    c1WitnessPlan
    c1WitnessOracle
    (by rfl)
    "a"
    [FieldValidation.new Validator.nested, FieldValidation.new Validator.email]
    [FieldValidation.new Validator.email, FieldValidation.new Validator.nested]
    rfl rfl

end ValidatorDerive
